import Mathlib

/-!
# Verification of the MCP-Client core against its specification

Shallow embedding of the repository's core components:

* `config_manager.py` — `TransportType`, `MCPServerConfig`, `ModelConfig`,
  `AppConfig`, and `ConfigManager.export_config` / `import_config`.
* `backend/mcp_client.py` — `MCPClient._create_mcp_tools` (transport handle
  construction with validation) and the connect loop of `MCPClient.connect`.
* `backend/app.py` — `create_mcp_tools`, `connect_mcp_servers`, and the SSE
  run-event projector `generate_sse_response`.

Python strings are modelled as Lean `String` (slicing via the character
list), Python dicts as association lists, `None`-able values as `Option`,
raised exceptions as `Except`, and the wall clock as explicit integer
timestamps attached to each consumed notification.
-/

namespace MCPClient

/-! ## Python-semantics helpers -/
/-- Truthiness of an optional Python string (`None` and `""` are falsy). -/
def truthyStr (s : Option String) : Bool :=
  match s with
  | none => false
  | some v => v ≠ ""

/-- Truthiness of an optional Python dict (`None` and `{}` are falsy). -/
def truthyDict (d : Option (List (String × String))) : Bool :=
  match d with
  | none => false
  | some l => l ≠ []

/-- Python slice `s[:n]` on a string, by characters. -/
def pySlice (s : String) (n : Nat) : String :=
  String.mk (s.data.take n)

/-- Python `len(s)` on a string. -/
def pyLen (s : String) : Nat :=
  s.data.length

/-! ## Data model (`config_manager.py`) -/
/-- Enum `TransportType(str, Enum)`: the three supported transports. -/
inductive TransportType
  | stdio
  | sse
  | streamableHttp
deriving DecidableEq, Repr

/-- The string value of a `TransportType` member. -/
def TransportType.value : TransportType → String
  | .stdio => "stdio"
  | .sse => "sse"
  | .streamableHttp => "streamable-http"

/-- Coercion `TransportType(v)` from a string value, failing on others. -/
def TransportType.fromValue (v : String) : Option TransportType :=
  if v = "stdio" then some .stdio
  else if v = "sse" then some .sse
  else if v = "streamable-http" then some .streamableHttp
  else none

/-- Model `MCPServerConfig`: configuration for a single MCP server. -/
structure MCPServerConfig where
  id : String
  name : String
  description : String := ""
  enabled : Bool := true
  transport : TransportType
  command : Option String := none
  args : List String := []
  url : Option String := none
  headers : List (String × String) := []
  env : List (String × String) := []
  timeout : Option Int := some 30
  sse_read_timeout : Option Int := some 300
deriving DecidableEq, Repr

/-- Model `ModelConfig`: configuration for the LLM model. -/
structure ModelConfig where
  provider : String := "openai"
  model_id : String := "gpt-4o-mini"
  api_key_env : Option String := none
  base_url : Option String := none
  temperature : Rat := (7 : Rat) / 10
  max_tokens : Option Int := none
deriving DecidableEq, Repr

/-- Model `AppConfig`: the full application configuration. -/
structure AppConfig where
  servers : List MCPServerConfig := []
  default_model : ModelConfig := {}
deriving DecidableEq, Repr

/-! ## JSON values

`export_config` renders `model_dump()` output through `json.dumps` and
`import_config` reads it back through `json.loads`; the byte-level JSON
codec is an external collaborator, so the round trip is modelled at the
level of the JSON value tree that `json.dumps`/`json.loads` preserve. -/
/-- A JSON value as produced by `model_dump` / consumed by `json.loads`. -/
inductive Json
  | null
  | bool (b : Bool)
  | num (q : Rat)
  | str (s : String)
  | arr (xs : List Json)
  | obj (fields : List (String × Json))

/-- Dump an optional string (`None` → JSON null). -/
def dumpOptStr : Option String → Json
  | none => .null
  | some s => .str s

/-- Dump an optional int (`None` → JSON null). -/
def dumpOptInt : Option Int → Json
  | none => .null
  | some n => .num (n : Rat)

/-- Dump a `Dict[str, str]` as a JSON object. -/
def dumpStrDict (d : List (String × String)) : Json :=
  .obj (d.map (fun p => (p.1, Json.str p.2)))

/-- Dump `MCPServerConfig.model_dump()`: fields in declaration order. -/
def dumpServer (s : MCPServerConfig) : Json :=
  .obj [("id", .str s.id),
        ("name", .str s.name),
        ("description", .str s.description),
        ("enabled", .bool s.enabled),
        ("transport", .str s.transport.value),
        ("command", dumpOptStr s.command),
        ("args", .arr (s.args.map Json.str)),
        ("url", dumpOptStr s.url),
        ("headers", dumpStrDict s.headers),
        ("env", dumpStrDict s.env),
        ("timeout", dumpOptInt s.timeout),
        ("sse_read_timeout", dumpOptInt s.sse_read_timeout)]

/-- Dump `ModelConfig.model_dump()`. -/
def dumpModel (m : ModelConfig) : Json :=
  .obj [("provider", .str m.provider),
        ("model_id", .str m.model_id),
        ("api_key_env", dumpOptStr m.api_key_env),
        ("base_url", dumpOptStr m.base_url),
        ("temperature", .num m.temperature),
        ("max_tokens", dumpOptInt m.max_tokens)]

/-- Dump `AppConfig.model_dump()`. -/
def dumpConfig (c : AppConfig) : Json :=
  .obj [("servers", .arr (c.servers.map dumpServer)),
        ("default_model", dumpModel c.default_model)]

/-- Export `ConfigManager.export_config`: serialize the current configuration
(the `json.dumps(..., indent=2)` byte rendering is the external codec). -/
def export_config (c : AppConfig) : Json :=
  dumpConfig c

/-! ### Pydantic validation (models `AppConfig(**data)` on import) -/
/-- Read a required string field. -/
def getStr (fields : List (String × Json)) (k : String) : Except String String :=
  match fields.lookup k with
  | some (.str s) => .ok s
  | _ => .error ("field " ++ k ++ " must be a string")

/-- Read an optional string field (missing or null → `None`). -/
def getOptStr (fields : List (String × Json)) (k : String) :
    Except String (Option String) :=
  match fields.lookup k with
  | none => .ok none
  | some .null => .ok none
  | some (.str s) => .ok (some s)
  | some _ => .error ("field " ++ k ++ " must be a string or null")

/-- Read a string field with a default for a missing key. -/
def getStrD (fields : List (String × Json)) (k : String) (d : String) :
    Except String String :=
  match fields.lookup k with
  | none => .ok d
  | some (.str s) => .ok s
  | some _ => .error ("field " ++ k ++ " must be a string")

/-- Read a boolean field with a default for a missing key. -/
def getBoolD (fields : List (String × Json)) (k : String) (d : Bool) :
    Except String Bool :=
  match fields.lookup k with
  | none => .ok d
  | some (.bool b) => .ok b
  | some _ => .error ("field " ++ k ++ " must be a boolean")

/-- Read an optional integer field with a default for a missing key. -/
def getOptIntD (fields : List (String × Json)) (k : String) (d : Option Int) :
    Except String (Option Int) :=
  match fields.lookup k with
  | none => .ok d
  | some .null => .ok none
  | some (.num q) => if q.den = 1 then .ok (some q.num)
                     else .error ("field " ++ k ++ " must be an integer")
  | some _ => .error ("field " ++ k ++ " must be an integer or null")

/-- Read a number field with a default for a missing key. -/
def getNumD (fields : List (String × Json)) (k : String) (d : Rat) :
    Except String Rat :=
  match fields.lookup k with
  | none => .ok d
  | some (.num q) => .ok q
  | some _ => .error ("field " ++ k ++ " must be a number")

/-- Decode a JSON array of strings, left to right, failing on the first
non-string element. -/
def decodeStrList (msg : String) : List Json → Except String (List String)
  | [] => .ok []
  | .str s :: rest => do
      let r ← decodeStrList msg rest
      pure (s :: r)
  | _ :: _ => .error msg

/-- Decode a JSON object into a `Dict[str, str]`, failing on the first
non-string value. -/
def decodePairs (msg : String) :
    List (String × Json) → Except String (List (String × String))
  | [] => .ok []
  | (k, .str s) :: rest => do
      let r ← decodePairs msg rest
      pure ((k, s) :: r)
  | _ :: _ => .error msg

/-- Read a list-of-strings field with a default for a missing key. -/
def getStrListD (fields : List (String × Json)) (k : String) (d : List String) :
    Except String (List String) :=
  match fields.lookup k with
  | none => .ok d
  | some (.arr xs) => decodeStrList ("field " ++ k ++ " must contain strings") xs
  | some _ => .error ("field " ++ k ++ " must be a list")

/-- Read a `Dict[str, str]` field with a default for a missing key. -/
def getStrDictD (fields : List (String × Json)) (k : String)
    (d : List (String × String)) : Except String (List (String × String)) :=
  match fields.lookup k with
  | none => .ok d
  | some (.obj kvs) => decodePairs ("field " ++ k ++ " must map to strings") kvs
  | some _ => .error ("field " ++ k ++ " must be an object")

/-- Read the required `transport` field as a `TransportType`. -/
def getTransport (fields : List (String × Json)) :
    Except String TransportType :=
  match fields.lookup "transport" with
  | some (.str s) =>
      match TransportType.fromValue s with
      | some t => .ok t
      | none => .error ("invalid transport: " ++ s)
  | _ => .error "field transport must be a string"

/-- Validate one server entry (`MCPServerConfig(**entry)`). -/
def parseServer (j : Json) : Except String MCPServerConfig :=
  match j with
  | .obj fields => do
      let id ← getStr fields "id"
      let name ← getStr fields "name"
      let description ← getStrD fields "description" ""
      let enabled ← getBoolD fields "enabled" true
      let transport ← getTransport fields
      let command ← getOptStr fields "command"
      let args ← getStrListD fields "args" []
      let url ← getOptStr fields "url"
      let headers ← getStrDictD fields "headers" []
      let env ← getStrDictD fields "env" []
      let timeout ← getOptIntD fields "timeout" (some 30)
      let sse_read_timeout ← getOptIntD fields "sse_read_timeout" (some 300)
      pure { id := id, name := name, description := description,
             enabled := enabled, transport := transport, command := command,
             args := args, url := url, headers := headers, env := env,
             timeout := timeout, sse_read_timeout := sse_read_timeout }
  | _ => .error "server entry must be an object"

/-- Validate the model configuration (`ModelConfig(**entry)`). -/
def parseModel (j : Json) : Except String ModelConfig :=
  match j with
  | .obj fields => do
      let provider ← getStrD fields "provider" "openai"
      let model_id ← getStrD fields "model_id" "gpt-4o-mini"
      let api_key_env ← getOptStr fields "api_key_env"
      let base_url ← getOptStr fields "base_url"
      let temperature ← getNumD fields "temperature" ((7 : Rat) / 10)
      let max_tokens ← getOptIntD fields "max_tokens" none
      pure { provider := provider, model_id := model_id,
             api_key_env := api_key_env, base_url := base_url,
             temperature := temperature, max_tokens := max_tokens }
  | _ => .error "default_model must be an object"

/-- Validate a list of server entries, left to right. -/
def parseServers : List Json → Except String (List MCPServerConfig)
  | [] => .ok []
  | j :: rest => do
      let s ← parseServer j
      let r ← parseServers rest
      pure (s :: r)

/-- Import `ConfigManager.import_config`: `json.loads` (external codec) followed by
`AppConfig(**data)`; no environment-variable substitution occurs on import. -/
def import_config (j : Json) : Except String AppConfig :=
  match j with
  | .obj fields => do
      let servers ←
        match fields.lookup "servers" with
        | none => Except.ok []
        | some (.arr xs) => parseServers xs
        | some _ => Except.error "servers must be a list"
      let default_model ←
        match fields.lookup "default_model" with
        | none => Except.ok ({} : ModelConfig)
        | some j => parseModel j
      pure { servers := servers, default_model := default_model }
  | _ => .error "configuration must be an object"

/-! ## Transport handles (`create_mcp_tools` / `MCPClient._create_mcp_tools`)

A transport handle is the pure data passed to the external `MCPTools` /
`StdioServerParameters` constructors; no network or process I/O happens at
construction time. -/
/-- The transport-specific handle built from a server descriptor. -/
inductive TransportHandle
  | stdioParams (command : Option String) (args : List String)
      (env : List (String × String))
  | sseTools (url : Option String) (headers : List (String × String))
  | streamableHttpTools (url : Option String)
      (headers : List (String × String))
deriving DecidableEq, Repr

/-- Python `base.update(upd)` on dicts: updated keys keep their position,
new keys are appended. -/
def dictUpdate (base upd : List (String × String)) :
    List (String × String) :=
  base.map (fun p => match upd.lookup p.1 with
    | some v => (p.1, v)
    | none => p) ++
  upd.filter (fun q => base.lookup q.1 = none)

/-- Python `d or {}` on a dict that is never `None` here. -/
def pyOrEmptyDict (d : List (String × String)) : List (String × String) :=
  if d = [] then [] else d

/-- Function `create_mcp_tools` from `backend/app.py`: build the handle for a server
descriptor without validating `command`/`url` (its trailing
`raise ValueError` branch is unreachable for the three `TransportType`
members). The descriptor's `timeout` and `sse_read_timeout` never appear
in the constructed handle. -/
def create_mcp_tools (osEnv : List (String × String))
    (server : MCPServerConfig) : TransportHandle :=
  match server.transport with
  | .stdio =>
      .stdioParams server.command server.args (dictUpdate osEnv server.env)
  | .sse => .sseTools server.url (pyOrEmptyDict server.headers)
  | .streamableHttp =>
      .streamableHttpTools server.url (pyOrEmptyDict server.headers)

/-- The configuration errors raised by `MCPClient._create_mcp_tools`. -/
inductive MCPClientError
  | missingCommand (serverId : String)
  | missingUrl (serverId : String) (transportWord : String)
  | unsupportedTransport (transportValue : String)
deriving DecidableEq, Repr

/-- The message text of an `MCPClientError`, as in the Python f-strings. -/
def MCPClientError.message : MCPClientError → String
  | .missingCommand sid =>
      "Server '" ++ sid ++ "' requires a command for stdio transport"
  | .missingUrl sid w =>
      "Server '" ++ sid ++ "' requires a URL for " ++ w ++ " transport"
  | .unsupportedTransport tv => "Unsupported transport type: " ++ tv

/-- Function `MCPClient._create_mcp_tools` from `backend/mcp_client.py`: dispatch on
the transport's string value (the Python comparisons `server.transport ==
TransportType.STDIO` compare str-enum values), validating that stdio has a
truthy `command` and the HTTP transports a truthy `url`, and rejecting any
other transport value. Pure construction: no network or process I/O. -/
def client_create_mcp_tools (transportValue : String)
    (server : MCPServerConfig) (osEnv : List (String × String)) :
    Except MCPClientError TransportHandle :=
  if transportValue = TransportType.stdio.value then
    if truthyStr server.command then
      .ok (.stdioParams server.command server.args (dictUpdate osEnv server.env))
    else .error (.missingCommand server.id)
  else if transportValue = TransportType.sse.value then
    if truthyStr server.url then
      .ok (.sseTools server.url (pyOrEmptyDict server.headers))
    else .error (.missingUrl server.id "SSE")
  else if transportValue = TransportType.streamableHttp.value then
    if truthyStr server.url then
      .ok (.streamableHttpTools server.url (pyOrEmptyDict server.headers))
    else .error (.missingUrl server.id "streamable-http")
  else .error (.unsupportedTransport transportValue)

/-! ## Connection pool reconcile (`connect_mcp_servers` in `backend/app.py`)

The per-server `build` step and the external `MCPTools.connect()` call are
fallible collaborators, modelled as `Except`-valued oracles. The loop body
wraps each attempt in `try/except`, so one server's failure only skips that
server. -/
/-- One server's attempt: build the handle, then connect it
(`create_mcp_tools(server)` followed by `mcp_tool.connect()`). -/
def attempt_server {α : Type}
    (build : MCPServerConfig → Except String TransportHandle)
    (connect : TransportHandle → Except String α)
    (s : MCPServerConfig) : Except String α := do
  let h ← build s
  connect h

/-- Python `try: ... except: ...` around an `Except` computation. -/
def tryE {ε α : Type} (x : Except ε α) (handler : ε → Except ε α) :
    Except ε α :=
  match x with
  | .ok a => .ok a
  | .error e => handler e

/-- One iteration of the connect loop, already known to be exception-free:
on success append the connected tool, on failure only log; either way the
descriptor was attempted (its id is recorded in the attempt trace). -/
def connect_step {α : Type}
    (build : MCPServerConfig → Except String TransportHandle)
    (connect : TransportHandle → Except String α)
    (acc : List α × List String) (s : MCPServerConfig) :
    List α × List String :=
  match attempt_server build connect s with
  | .ok c => (acc.1 ++ [c], acc.2 ++ [s.id])
  | .error _ => (acc.1, acc.2 ++ [s.id])

/-- The connect loop of `connect_mcp_servers`, with the exception channel
kept explicit: an uncaught exception in an iteration would abort the whole
batch through the `.error` branch. -/
def connect_loop {α : Type}
    (build : MCPServerConfig → Except String TransportHandle)
    (connect : TransportHandle → Except String α) :
    List MCPServerConfig → (List α × List String) →
    Except String (List α × List String)
  | [], acc => .ok acc
  | s :: rest, acc =>
      match tryE (do
          let c ← attempt_server build connect s
          pure (acc.1 ++ [c], acc.2 ++ [s.id]))
        (fun _ => pure (acc.1, acc.2 ++ [s.id])) with
      | .ok acc' => connect_loop build connect rest acc'
      | .error e => .error e

/-- Loop `connect_mcp_servers` (exception channel explicit): iterate over the
enabled descriptors in order. -/
def connect_mcp_servers_exc {α : Type}
    (build : MCPServerConfig → Except String TransportHandle)
    (connect : TransportHandle → Except String α)
    (servers : List MCPServerConfig) :
    Except String (List α × List String) :=
  connect_loop build connect (servers.filter (·.enabled)) ([], [])

/-- The pure result of the reconcile batch: connected tools in order, plus
the trace of attempted descriptor ids. -/
def connect_mcp_servers_pure {α : Type}
    (build : MCPServerConfig → Except String TransportHandle)
    (connect : TransportHandle → Except String α)
    (servers : List MCPServerConfig) : List α × List String :=
  (servers.filter (·.enabled)).foldl (connect_step build connect) ([], [])

/-- Reconcile `connect_mcp_servers` with the concrete `create_mcp_tools` build step
from `backend/app.py` and the external connect capability as an oracle. -/
def connect_mcp_servers {α : Type} (osEnv : List (String × String))
    (connect : TransportHandle → Except String α)
    (servers : List MCPServerConfig) : List α × List String :=
  connect_mcp_servers_pure (fun s => .ok (create_mcp_tools osEnv s))
    connect servers

/-- Concrete descriptor used for witnesses. -/
def sampleStdio : MCPServerConfig :=
  { id := "s1", name := "echo server", transport := .stdio,
    command := some "echo" }

/-- Concrete SSE descriptor with no url. -/
def sampleSseNoUrl : MCPServerConfig :=
  { id := "s2", name := "sse server", transport := .sse }

/-- Descriptor with a 5-second configured timeout. -/
def timeoutA : MCPServerConfig :=
  { id := "t1", name := "srv", transport := .sse, url := some "http://h",
    timeout := some 5 }

/-- The same descriptor with a 999-second configured timeout. -/
def timeoutB : MCPServerConfig :=
  { id := "t1", name := "srv", transport := .sse, url := some "http://h",
    timeout := some 999 }

/-! ## Run-event projector (`generate_sse_response` in `backend/app.py`)

The raw execution chunks from `agent.arun(message, stream=True,
stream_events=True)` carry an event kind, an optional `tool` object of
non-uniform shape, and optional content; each consumed chunk also observes
the wall clock (`chunk_time = int(time.time())`), modelled as an integer
timestamp attached to the chunk. Emitted SSE frames are snapshots: the
`json.dumps` at yield time freezes the record values. -/
/-- The raw tool payload of a chunk; every attribute is probed with
`getattr(..., None)`-style defaults, so all fields are optional. -/
structure RawTool where
  tool_call_id : Option String := none
  tool_name : Option String := none
  name : Option String := none
  tool_args : Option (List (String × String)) := none
  arguments : Option (List (String × String)) := none
  result : Option String := none
  content : Option String := none
  tool_call_error : Bool := false
deriving DecidableEq, Repr

/-- The kind of a raw chunk (`AgnoRunEvent` comparisons); `other` covers
every unhandled kind, which the loop skips. -/
inductive ChunkKind
  | toolCallStarted
  | toolCallCompleted
  | runContent
  | runCompleted
  | other
deriving DecidableEq, Repr

/-- One raw chunk from the model-execution capability. -/
structure Chunk where
  event : ChunkKind
  tool : Option RawTool := none
  content : Option String := none
deriving DecidableEq, Repr

/-- A tool-call record (`tool_info` dict) tracked for the run. -/
structure ToolCallRecord where
  role : String := "tool"
  content : Option String := none
  tool_call_id : String
  tool_name : String
  tool_args : List (String × String) := []
  tool_call_error : Bool := false
  metricsTime : Int := 0
  created_at : Int
deriving DecidableEq, Repr

/-- One emitted SSE frame (the JSON object in a `data:` line). -/
structure Frame where
  event : String
  content : Option String := none
  content_type : String := "text"
  session_id : String
  run_id : String
  agent_id : String
  tool : Option ToolCallRecord := none
  tools : Option (List ToolCallRecord) := none
  created_at : Int
deriving DecidableEq, Repr

/-- Identity of one run, fixed before the first frame is emitted. -/
structure RunCtx where
  session_id : String
  run_id : String
  agent_id : String
deriving DecidableEq, Repr

/-- Mutable per-run state of the drain loop: the ordered tool-record list
(`tool_calls`), the correlation index (`tool_call_map`, mapping a
correlation id to a position in `tool_calls`, since the Python dict aliases
the same mutable dicts held by the list), the accumulated content buffer,
and a counter source for synthesized `uuid4` identifiers. -/
structure ProjState where
  records : List ToolCallRecord := []
  callMap : List (String × Nat) := []
  accumulated : String := ""
  uuidCounter : Nat := 0
deriving DecidableEq, Repr

/-- The synthesized correlation id for the n-th `uuid.uuid4()` call. -/
def freshId (n : Nat) : String :=
  "uuid-" ++ toString n

/-- Python dict assignment `m[k] = v`: replace an existing binding in
place, or append a new one. -/
def dictInsert (m : List (String × Nat)) (k : String) (v : Nat) :
    List (String × Nat) :=
  match m with
  | [] => [(k, v)]
  | (k', v') :: rest =>
      if k' = k then (k, v) :: rest else (k', v') :: dictInsert rest k v

/-- Lookup `tool_call_map.get(tc_id)` where `tc_id` may be `None`. -/
def mapGet (m : List (String × Nat)) (k : Option String) : Option Nat :=
  match k with
  | none => none
  | some s => m.lookup s

/-- Correlation id extraction on start:
`getattr(tool, 'tool_call_id', None) or str(uuid.uuid4())`. -/
def startId (t : RawTool) (n : Nat) : String × Nat :=
  if truthyStr t.tool_call_id then (t.tool_call_id.getD "", n)
  else (freshId n, n + 1)

/-- Tool name extraction on start:
`getattr(tool, 'tool_name', None) or getattr(tool, 'name', 'unknown')`. -/
def startName (t : RawTool) : String :=
  if truthyStr t.tool_name then t.tool_name.getD ""
  else t.name.getD "unknown"

/-- Tool args extraction on start: `getattr(tool, 'tool_args', None) or
getattr(tool, 'arguments', {}) or {}` (always a dict here, so the
`isinstance` guard passes). -/
def startArgs (t : RawTool) : List (String × String) :=
  if truthyDict t.tool_args then t.tool_args.getD []
  else if truthyDict t.arguments then t.arguments.getD []
  else []

/-- Result text on completion: `tc_result = getattr(tool, 'result', None)
or getattr(tool, 'content', None)`, then
`result_str = str(tc_result) if tc_result else ""`. -/
def resultStr (t : RawTool) : String :=
  let r := if truthyStr t.result then t.result else t.content
  if truthyStr r then r.getD "" else ""

/-- The stored tool result:
`result_str[:2000] if len(result_str) > 2000 else result_str`. -/
def truncateResult (s : String) : String :=
  if pyLen s > 2000 then pySlice s 2000 else s

/-- The completion target: `tool_call_map.get(tc_id)`, else the first
record whose `content` is still `None` (only probed when `tool_calls` is
non-empty), else none — in which case the completion is dropped. -/
def matchIdx (st : ProjState) (tcId : Option String) : Option Nat :=
  match mapGet st.callMap tcId with
  | some i => some i
  | none =>
      if st.records.isEmpty then none
      else st.records.findIdx? (fun r => r.content = none)

/-- The `ToolCallStarted` frame for a freshly created record. -/
def toolStartedFrame (ctx : RunCtx) (rec : ToolCallRecord) (t : Int) : Frame :=
  { event := "ToolCallStarted", content := none, content_type := "text",
    session_id := ctx.session_id, run_id := ctx.run_id,
    agent_id := ctx.agent_id, tool := some rec, tools := none,
    created_at := t }

/-- The `ToolCallCompleted` frame for an updated record. -/
def toolCompletedFrame (ctx : RunCtx) (rec : ToolCallRecord) (t : Int) :
    Frame :=
  { event := "ToolCallCompleted", content := none, content_type := "text",
    session_id := ctx.session_id, run_id := ctx.run_id,
    agent_id := ctx.agent_id, tool := some rec, tools := none,
    created_at := t }

/-- Python `tool_calls if tool_calls else None` attached to content frames. -/
def toolsField (records : List ToolCallRecord) : Option (List ToolCallRecord) :=
  if records.isEmpty then none else some records

/-- The `RunContent` frame carrying the full accumulated buffer. -/
def runContentFrame (ctx : RunCtx) (content : String)
    (records : List ToolCallRecord) (t : Int) : Frame :=
  { event := "RunContent", content := some content, content_type := "text",
    session_id := ctx.session_id, run_id := ctx.run_id,
    agent_id := ctx.agent_id, tool := none, tools := toolsField records,
    created_at := t }

/-- The `RunCompleted` frame. -/
def runCompletedFrame (ctx : RunCtx) (content : String)
    (records : List ToolCallRecord) (t : Int) : Frame :=
  { event := "RunCompleted", content := some content, content_type := "text",
    session_id := ctx.session_id, run_id := ctx.run_id,
    agent_id := ctx.agent_id, tool := none, tools := toolsField records,
    created_at := t }

/-- The `RunStarted` frame, emitted before any chunk is consumed. -/
def runStartedFrame (ctx : RunCtx) (t : Int) : Frame :=
  { event := "RunStarted", content := none, content_type := "text",
    session_id := ctx.session_id, run_id := ctx.run_id,
    agent_id := ctx.agent_id, tool := none, tools := none, created_at := t }

/-- The `RunError` frame emitted by the `except` handler. -/
def runErrorFrame (ctx : RunCtx) (msg : String) (t : Int) : Frame :=
  { event := "RunError", content := some msg, content_type := "text",
    session_id := ctx.session_id, run_id := ctx.run_id,
    agent_id := ctx.agent_id, tool := none, tools := none, created_at := t }

/-- The in-place update applied to the matched record on completion:
store the truncated result text, the error flag, and
`metrics["time"] = end_time - start_time`. -/
def completeRecord (tool : RawTool) (t : Int) (rec : ToolCallRecord) :
    ToolCallRecord :=
  { rec with
    content := some (truncateResult (resultStr tool)),
    tool_call_error := tool.tool_call_error,
    metricsTime := t - rec.created_at }

/-- Process one raw chunk observed at time `t`: the body of the
`async for chunk in response_stream` loop. Returns the new state and the
zero or one frames emitted for this chunk. -/
def step (ctx : RunCtx) (st : ProjState) (c : Chunk) (t : Int) :
    ProjState × List Frame :=
  match c.event with
  | .toolCallStarted =>
      match c.tool with
      | none => (st, [])
      | some tool =>
          let (tcId, counter') := startId tool st.uuidCounter
          let rec0 : ToolCallRecord :=
            { role := "tool", content := none, tool_call_id := tcId,
              tool_name := startName tool, tool_args := startArgs tool,
              tool_call_error := false, metricsTime := 0, created_at := t }
          ({ records := st.records ++ [rec0],
             callMap := dictInsert st.callMap tcId st.records.length,
             accumulated := st.accumulated, uuidCounter := counter' },
           [toolStartedFrame ctx rec0 t])
  | .toolCallCompleted =>
      match c.tool with
      | none => (st, [])
      | some tool =>
          match matchIdx st tool.tool_call_id with
          | none => (st, [])
          | some i =>
              match st.records[i]? with
              | none => (st, [])
              | some rec =>
                  let rec' := completeRecord tool t rec
                  ({ st with records := st.records.set i rec' },
                   [toolCompletedFrame ctx rec' t])
  | .runContent =>
      let content := c.content.getD ""
      if content = "" then (st, [])
      else
        ({ st with accumulated := content },
         [runContentFrame ctx content st.records t])
  | .runCompleted =>
      let finalContent :=
        match c.content with
        | none => st.accumulated
        | some v => if v = "" then st.accumulated else v
      (st, [runCompletedFrame ctx finalContent st.records t])
  | .other => (st, [])

/-- Drain the chunk stream: fold `step` over the timestamped chunks,
collecting frames in emission order. -/
def drain (ctx : RunCtx) (st : ProjState) :
    List (Chunk × Int) → ProjState × List Frame
  | [] => (st, [])
  | (c, t) :: rest =>
      let (st', fs) := step ctx st c t
      let (st'', fs') := drain ctx st' rest
      (st'', fs ++ fs')

/-- The state after consuming a prefix of the stream. -/
def stateAfter (ctx : RunCtx) (chunks : List (Chunk × Int)) : ProjState :=
  (drain ctx {} chunks).1

/-- Generator `generate_sse_response`: emit `RunStarted` at `startTime` before
consuming any chunk, then drain the stream; if the stream aborts with an
exception after the listed chunks, the `except` handler emits a single
`RunError` frame and the generator ends. -/
def generate_sse_response (ctx : RunCtx) (startTime : Int)
    (chunks : List (Chunk × Int)) (abort : Option (String × Int)) :
    List Frame :=
  runStartedFrame ctx startTime ::
    ((drain ctx {} chunks).2 ++
      (match abort with
       | none => []
       | some (msg, t) => [runErrorFrame ctx msg t]))

/-- A fixed run identity for concrete streams. -/
def sampleCtx : RunCtx :=
  { session_id := "sess-1", run_id := "run-1", agent_id := "mcp-agent" }

/-- A content-delta chunk carrying `c`. -/
def contentChunk (c : Option String) : Chunk :=
  { event := .runContent, tool := none, content := c }

/-- A 3000-character tool result. -/
def longResult : String :=
  String.mk (List.replicate 3000 'x')

/-- Its first 2000 characters. -/
def firstTwoThousand : String :=
  String.mk (List.replicate 2000 'x')

/-- Well-formedness of the correlation map: every binding points at an
existing record carrying that correlation id (the Python dict aliases the
very dict object stored in `tool_calls`). -/
def mapWF (st : ProjState) : Prop :=
  ∀ k i, st.callMap.lookup k = some i →
    ∃ rec, st.records[i]? = some rec ∧ rec.tool_call_id = k

/-- A concrete tool-call-started chunk with correlation id `T1`. -/
def startChunkT1 : Chunk :=
  { event := .toolCallStarted,
    tool := some { tool_call_id := some "T1", tool_name := some "search" } }

/-- A concrete completion payload for id `T1` carrying result `r`. -/
def complTool (r : String) : RawTool :=
  { tool_call_id := some "T1", result := some r }

/-- The record that `startChunkT1` creates at time 0. -/
def recT1 : ToolCallRecord :=
  { role := "tool", content := none, tool_call_id := "T1",
    tool_name := "search", tool_args := [], tool_call_error := false,
    metricsTime := 0, created_at := 0 }

/-! ## Theorems -/

/-! ### Round-trip lemmas -/
theorem fromValue_value (t : TransportType) :
    TransportType.fromValue t.value = some t := by
  cases t <;> rfl

theorem decodeStrList_map (msg : String) (xs : List String) :
    decodeStrList msg (xs.map Json.str) = .ok xs := by
  induction xs with
  | nil => rfl
  | cons a as ih => rw [List.map_cons, decodeStrList, ih]; rfl

theorem decodePairs_map (msg : String) (xs : List (String × String)) :
    decodePairs msg (xs.map (fun p => (p.1, Json.str p.2))) = .ok xs := by
  induction xs with
  | nil => rfl
  | cons a as ih => rw [List.map_cons, decodePairs, ih]; rfl

theorem parseServer_dumpServer (s : MCPServerConfig) :
    parseServer (dumpServer s) = .ok s := by
  rcases s with ⟨id, name, description, enabled, transport, command, args,
    url, headers, env, timeout, sse_read_timeout⟩
  cases command <;> cases url <;> cases timeout <;> cases sse_read_timeout <;>
    simp [dumpServer, parseServer, getStr, getStrD, getBoolD, getTransport,
      getOptStr, getStrListD, getStrDictD, getOptIntD, List.lookup,
      fromValue_value, decodeStrList_map, decodePairs_map, dumpStrDict,
      dumpOptStr, dumpOptInt, Rat.den_intCast, Rat.num_intCast,
      Bind.bind, Except.bind, Pure.pure, Except.pure]

theorem parseModel_dumpModel (m : ModelConfig) :
    parseModel (dumpModel m) = .ok m := by
  rcases m with ⟨provider, model_id, api_key_env, base_url, temperature,
    max_tokens⟩
  cases api_key_env <;> cases base_url <;> cases max_tokens <;>
    simp [dumpModel, parseModel, getStrD, getOptStr, getNumD, getOptIntD,
      List.lookup, dumpOptStr, dumpOptInt, Rat.den_intCast, Rat.num_intCast,
      Bind.bind, Except.bind, Pure.pure, Except.pure]

theorem parseServers_dump (ss : List MCPServerConfig) :
    parseServers (ss.map dumpServer) = .ok ss := by
  induction ss with
  | nil => rfl
  | cons a as ih =>
    rw [List.map_cons, parseServers, parseServer_dumpServer, ih]
    rfl

/-- C9: Configuration round-trip — exporting the configuration and then
importing the exported document yields exactly the same server-descriptor
and model configuration data (no environment-variable re-substitution even
occurs on import, so the equivalence is exact). -/
theorem import_export_roundtrip (c : AppConfig) :
    import_config (export_config c) = .ok c := by
  rcases c with ⟨servers, default_model⟩
  simp [export_config, dumpConfig, import_config, List.lookup,
    parseServers_dump, parseModel_dumpModel,
    Bind.bind, Except.bind, Pure.pure, Except.pure]

theorem connect_loop_ok {α : Type}
    (build : MCPServerConfig → Except String TransportHandle)
    (connect : TransportHandle → Except String α)
    (l : List MCPServerConfig) (acc : List α × List String) :
    connect_loop build connect l acc =
      .ok (l.foldl (connect_step build connect) acc) := by
  induction l generalizing acc with
  | nil => rfl
  | cons s rest ih =>
    rw [connect_loop, List.foldl_cons]
    cases h : attempt_server build connect s <;>
      simp [tryE, connect_step, h, Bind.bind, Except.bind, Pure.pure,
        Except.pure, ih]

theorem connect_step_attempts {α : Type}
    (build : MCPServerConfig → Except String TransportHandle)
    (connect : TransportHandle → Except String α)
    (l : List MCPServerConfig) (acc : List α × List String) :
    (l.foldl (connect_step build connect) acc).2 = acc.2 ++ l.map (·.id) := by
  induction l generalizing acc with
  | nil => simp
  | cons s rest ih =>
    rw [List.foldl_cons, List.map_cons, ih]
    cases h : attempt_server build connect s <;>
      simp [connect_step, h]

/-- C1: `connect_mcp_servers` never raises: for every build/connect oracle
and every descriptor list, the loop's exception channel is never taken (the
result is always `.ok`), and every enabled descriptor is attempted in
order, regardless of any build or connect failure of earlier descriptors. -/
theorem connect_mcp_servers_never_raises {α : Type}
    (build : MCPServerConfig → Except String TransportHandle)
    (connect : TransportHandle → Except String α)
    (servers : List MCPServerConfig) :
    connect_mcp_servers_exc build connect servers =
      .ok (connect_mcp_servers_pure build connect servers) ∧
    (connect_mcp_servers_pure build connect servers).2 =
      (servers.filter (·.enabled)).map (·.id) := by
  refine ⟨connect_loop_ok build connect _ _, ?_⟩
  have h := connect_step_attempts build connect (servers.filter (·.enabled))
    ([], [])
  simpa [connect_mcp_servers_pure] using h

/-- C7: `MCPClient._create_mcp_tools` fails with a configuration error
exactly when the transport-required field is missing (falsy): stdio with no
command gives the missing-command error, SSE / streamable-http with no url
give the missing-url error, any other transport value gives the
unsupported-transport error; otherwise it returns the handle, and
construction is a pure function (no network or process I/O). -/
theorem client_create_mcp_tools_errors (tv : String) (s : MCPServerConfig)
    (osEnv : List (String × String)) :
    (tv = "stdio" →
      client_create_mcp_tools tv s osEnv =
        (if truthyStr s.command then
          .ok (.stdioParams s.command s.args (dictUpdate osEnv s.env))
         else .error (.missingCommand s.id))) ∧
    (tv = "sse" →
      client_create_mcp_tools tv s osEnv =
        (if truthyStr s.url then
          .ok (.sseTools s.url (pyOrEmptyDict s.headers))
         else .error (.missingUrl s.id "SSE"))) ∧
    (tv = "streamable-http" →
      client_create_mcp_tools tv s osEnv =
        (if truthyStr s.url then
          .ok (.streamableHttpTools s.url (pyOrEmptyDict s.headers))
         else .error (.missingUrl s.id "streamable-http"))) ∧
    (tv ≠ "stdio" → tv ≠ "sse" → tv ≠ "streamable-http" →
      client_create_mcp_tools tv s osEnv =
        .error (.unsupportedTransport tv)) := by
  refine ⟨?_, ?_, ?_, ?_⟩ <;> intro h <;>
    simp_all [client_create_mcp_tools, TransportType.value]

theorem client_create_mcp_tools_errors_witness :
    client_create_mcp_tools "stdio" sampleStdio [] =
      .ok (.stdioParams (some "echo") [] []) ∧
    client_create_mcp_tools "sse" sampleSseNoUrl [] =
      .error (.missingUrl "s2" "SSE") ∧
    client_create_mcp_tools "streamable-http" sampleSseNoUrl [] =
      .error (.missingUrl "s2" "streamable-http") ∧
    client_create_mcp_tools "tcp" sampleStdio [] =
      .error (.unsupportedTransport "tcp") := by
  refine ⟨?_, ?_, ?_, ?_⟩
  · have h := (client_create_mcp_tools_errors "stdio" sampleStdio []).1 rfl
    simpa [sampleStdio, truthyStr, dictUpdate] using h
  · have h := (client_create_mcp_tools_errors "sse" sampleSseNoUrl []).2.1 rfl
    simpa [sampleSseNoUrl, truthyStr] using h
  · have h :=
      (client_create_mcp_tools_errors "streamable-http" sampleSseNoUrl []).2.2.1
        rfl
    simpa [sampleSseNoUrl, truthyStr] using h
  · exact (client_create_mcp_tools_errors "tcp" sampleStdio []).2.2.2
      (by decide) (by decide) (by decide)

/-- C6 counterexample: two descriptors that differ only in their configured
`timeout` produce identical transport handles, and the reconcile batch
treats them identically — the timeout value is never passed into the
transport handle or the connect call, so the connect attempt is not
bounded by it. -/
theorem connect_timeout_counterexample :
    timeoutA.timeout = some 5 ∧ timeoutB.timeout = some 999 ∧
    create_mcp_tools [] timeoutA = create_mcp_tools [] timeoutB ∧
    connect_mcp_servers []
        (fun h => (.ok h : Except String TransportHandle)) [timeoutA] =
      connect_mcp_servers [] (fun h => .ok h) [timeoutB] := by
  refine ⟨rfl, rfl, rfl, rfl⟩

theorem create_mcp_tools_timeout (osEnv : List (String × String))
    (s : MCPServerConfig) (t : Option Int) :
    create_mcp_tools osEnv { s with timeout := t } =
      create_mcp_tools osEnv s := by
  rcases s with ⟨id, name, description, enabled, transport, command, args,
    url, headers, env, timeout, sse_read_timeout⟩
  cases transport <;> rfl

theorem connect_step_timeout {α : Type} (osEnv : List (String × String))
    (connect : TransportHandle → Except String α)
    (acc : List α × List String) (s : MCPServerConfig) (t : Option Int) :
    connect_step (fun s => .ok (create_mcp_tools osEnv s)) connect acc
        { s with timeout := t } =
      connect_step (fun s => .ok (create_mcp_tools osEnv s)) connect acc s := by
  simp [connect_step, attempt_server, Bind.bind, Except.bind,
    create_mcp_tools_timeout]

theorem foldl_connect_step_timeout {α : Type} (osEnv : List (String × String))
    (connect : TransportHandle → Except String α)
    (f : MCPServerConfig → Option Int) (l : List MCPServerConfig) :
    ∀ acc : List α × List String,
      (l.map (fun s => { s with timeout := f s })).foldl
        (connect_step (fun s => .ok (create_mcp_tools osEnv s)) connect) acc =
      l.foldl (connect_step (fun s => .ok (create_mcp_tools osEnv s)) connect)
        acc := by
  induction l with
  | nil => intro acc; rfl
  | cons s rest ih =>
    intro acc
    rw [List.map_cons, List.foldl_cons, List.foldl_cons,
      connect_step_timeout, ih]

/-- C6 amended: the descriptor's configured `timeout` is ignored by
reconcile — handle construction and the whole reconcile batch are invariant
under arbitrary changes to every descriptor's `timeout` — while any
failure surfaced by the connect attempt (a library-level timeout included)
is treated identically to any other connect failure: the server is
recorded as failed/skipped and the batch continues. -/
theorem connect_timeout_ignored :
    (∀ osEnv s t, create_mcp_tools osEnv { s with timeout := t } =
      create_mcp_tools osEnv s) ∧
    (∀ (α : Type) osEnv (connect : TransportHandle → Except String α)
        (servers : List MCPServerConfig) (f : MCPServerConfig → Option Int),
      connect_mcp_servers osEnv connect
          (servers.map (fun s => { s with timeout := f s })) =
        connect_mcp_servers osEnv connect servers) ∧
    (∀ (α : Type) (build : MCPServerConfig → Except String TransportHandle)
        (connect : TransportHandle → Except String α) acc s e,
      attempt_server build connect s = .error e →
      connect_step build connect acc s = (acc.1, acc.2 ++ [s.id])) := by
  refine ⟨create_mcp_tools_timeout, ?_, ?_⟩
  · intro α osEnv connect servers f
    unfold connect_mcp_servers connect_mcp_servers_pure
    have hfil : (servers.map (fun s => { s with timeout := f s })).filter
        (·.enabled) =
        (servers.filter (·.enabled)).map (fun s => { s with timeout := f s }) := by
      rw [List.filter_map]
      rfl
    rw [hfil, foldl_connect_step_timeout]
  · intro α build connect acc s e h
    simp [connect_step, h]

theorem connect_timeout_ignored_witness :
    connect_step (fun _ => .error "timed out")
        (fun h => (.ok h : Except String TransportHandle)) ([], [])
        sampleStdio = ([], ["s1"]) := by
  have h := connect_timeout_ignored.2.2 TransportHandle
    (fun _ => .error "timed out") (fun h => .ok h) ([], []) sampleStdio
    "timed out" rfl
  simpa [sampleStdio] using h

/-- C2: a content-delta chunk is treated as the full accumulated content —
the projector overwrites (never appends to) the accumulated buffer and
emits `RunContent` carrying exactly that payload; in particular the stream
`"a"`, `"ab"`, `"abc"` ends with a last `RunContent` frame carrying
`"abc"`. -/
theorem runContent_overwrites :
    (∀ (ctx : RunCtx) (st : ProjState) (c : String) (t : Int), c ≠ "" →
      step ctx st (contentChunk (some c)) t =
        ({ st with accumulated := c },
         [runContentFrame ctx c st.records t])) ∧
    ((generate_sse_response sampleCtx 0
        [(contentChunk (some "a"), 1), (contentChunk (some "ab"), 2),
         (contentChunk (some "abc"), 3)] none).filter
        (fun f => f.event = "RunContent")).getLast? =
      some (runContentFrame sampleCtx "abc" [] 3) ∧
    (stateAfter sampleCtx
        [(contentChunk (some "a"), 1), (contentChunk (some "ab"), 2),
         (contentChunk (some "abc"), 3)]).accumulated = "abc" := by
  refine ⟨?_, by decide, by decide⟩
  intro ctx st c t h
  simp [step, contentChunk, h]

theorem runContent_overwrites_witness :
    step sampleCtx { accumulated := "zzz" } (contentChunk (some "a")) 0 =
      ({ accumulated := "a" }, [runContentFrame sampleCtx "a" [] 0]) := by
  have h := runContent_overwrites.1 sampleCtx { accumulated := "zzz" } "a" 0
    (by decide)
  simpa using h

/-- C10: a content-delta chunk whose content is absent or empty is falsy in
the `if content:` guard — no `RunContent` frame is emitted and the state
(accumulated buffer, tool list, correlation map) is fully unchanged. -/
theorem runContent_empty_skipped (ctx : RunCtx) (st : ProjState)
    (oc : Option String) (t : Int) (h : truthyStr oc = false) :
    step ctx st (contentChunk oc) t = (st, []) := by
  cases oc with
  | none => simp [step, contentChunk]
  | some v =>
    have hv : v = "" := by
      by_contra hne
      simp [truthyStr, hne] at h
    subst hv
    simp [step, contentChunk]

theorem runContent_empty_skipped_witness :
    step sampleCtx { accumulated := "abc" } (contentChunk none) 5 =
      ({ accumulated := "abc" }, []) ∧
    step sampleCtx { accumulated := "abc" } (contentChunk (some "")) 5 =
      ({ accumulated := "abc" }, []) :=
  ⟨runContent_empty_skipped sampleCtx { accumulated := "abc" } none 5
      (by decide),
   runContent_empty_skipped sampleCtx { accumulated := "abc" } (some "") 5
      (by decide)⟩

theorem take_replicate_of_le {α : Type} (a : α) :
    ∀ n m : Nat, n ≤ m →
      (List.replicate m a).take n = List.replicate n a := by
  intro n
  induction n with
  | zero => intro m _; simp
  | succ k ih =>
    intro m hm
    cases m with
    | zero => exact absurd hm (by omega)
    | succ m' =>
      rw [List.replicate_succ, List.replicate_succ, List.take_succ_cons,
        ih m' (by omega)]

theorem pySlice_of_le (s : String) (n : Nat) (h : pyLen s ≤ n) :
    pySlice s n = s := by
  cases s with
  | mk data =>
    simp only [pySlice, pyLen] at *
    rw [List.take_of_length_le h]

/-- C4: the stored content of a completed tool call is the result coerced
to text and clipped to its first 2000 characters (`truncateResult` equals a
plain first-2000 slice, and `step` is total, so no error is raised for
over-long results); a 3000-character result stores exactly its first 2000
characters. -/
theorem tool_result_truncation :
    (∀ s : String, truncateResult s = pySlice s 2000) ∧
    (∀ (ctx : RunCtx) (st : ProjState) (tool : RawTool) (t : Int)
        (i : Nat) (rec : ToolCallRecord),
      matchIdx st tool.tool_call_id = some i →
      st.records[i]? = some rec →
      step ctx st { event := .toolCallCompleted, tool := some tool } t =
        ({ st with records := st.records.set i (completeRecord tool t rec) },
         [toolCompletedFrame ctx (completeRecord tool t rec) t]) ∧
      (completeRecord tool t rec).content =
        some (truncateResult (resultStr tool))) ∧
    pyLen longResult = 3000 ∧
    truncateResult longResult = firstTwoThousand ∧
    firstTwoThousand = pySlice longResult 2000 ∧
    pyLen firstTwoThousand = 2000 := by
  have hslice : pySlice longResult 2000 = firstTwoThousand := by
    simp only [pySlice, longResult, firstTwoThousand]
    rw [take_replicate_of_le 'x' 2000 3000 (by omega)]
  have hlen : pyLen longResult = 3000 := by
    simp only [pyLen, longResult, List.length_replicate]
  have hlen2 : pyLen firstTwoThousand = 2000 := by
    simp only [pyLen, firstTwoThousand, List.length_replicate]
  refine ⟨?_, ?_, hlen, ?_, hslice.symm, hlen2⟩
  · intro s
    by_cases h : pyLen s > 2000
    · simp [truncateResult, h]
    · rw [truncateResult, if_neg h, pySlice_of_le s 2000 (by omega)]
  · intro ctx st tool t i rec hmatch hrec
    constructor
    · simp [step, hmatch, hrec]
    · rfl
  · rw [truncateResult, if_pos (by rw [hlen]; omega), hslice]

theorem tool_result_truncation_witness :
    step sampleCtx
        { records := [{ tool_call_id := "T1", tool_name := "search",
                        created_at := 0 }],
          callMap := [("T1", 0)] }
        { event := .toolCallCompleted,
          tool := some { tool_call_id := some "T1", result := some "42" } }
        1 =
      ({ records := [{ tool_call_id := "T1", tool_name := "search",
                       created_at := 0, content := some "42",
                       metricsTime := 1 }],
         callMap := [("T1", 0)] },
       [toolCompletedFrame sampleCtx
          { tool_call_id := "T1", tool_name := "search", created_at := 0,
            content := some "42", metricsTime := 1 } 1]) := by
  have h := (tool_result_truncation.2.1 sampleCtx
    { records := [{ tool_call_id := "T1", tool_name := "search",
                    created_at := 0 }],
      callMap := [("T1", 0)] }
    { tool_call_id := some "T1", result := some "42" } 1 0
    { tool_call_id := "T1", tool_name := "search", created_at := 0 }
    (by decide) (by decide)).1
  simpa [completeRecord, resultStr, truthyStr, truncateResult, pyLen,
    pySlice] using h

theorem step_mid_events (ctx : RunCtx) (st : ProjState) (c : Chunk)
    (t : Int) :
    ∀ f ∈ (step ctx st c t).2,
      f.event ≠ "RunStarted" ∧ f.event ≠ "RunError" := by
  intro f hf
  rcases c with ⟨ev, tool, oc⟩
  cases ev with
  | toolCallStarted =>
    cases tool with
    | none => simp [step] at hf
    | some tl =>
      simp only [step] at hf
      simp at hf
      subst hf
      exact ⟨by simp [toolStartedFrame], by simp [toolStartedFrame]⟩
  | toolCallCompleted =>
    cases tool with
    | none => simp [step] at hf
    | some tl =>
      simp only [step] at hf
      cases hm : matchIdx st tl.tool_call_id with
      | none => rw [hm] at hf; simp at hf
      | some i =>
        rw [hm] at hf
        dsimp only at hf
        cases hr : st.records[i]? with
        | none => rw [hr] at hf; simp at hf
        | some rec =>
          rw [hr] at hf
          simp at hf
          subst hf
          exact ⟨by simp [toolCompletedFrame], by simp [toolCompletedFrame]⟩
  | runContent =>
    simp only [step] at hf
    by_cases hc : oc.getD "" = ""
    · rw [if_pos hc] at hf
      simp at hf
    · rw [if_neg hc] at hf
      simp at hf
      subst hf
      exact ⟨by simp [runContentFrame], by simp [runContentFrame]⟩
  | runCompleted =>
    simp only [step] at hf
    simp at hf
    subst hf
    exact ⟨by simp [runCompletedFrame], by simp [runCompletedFrame]⟩
  | other => simp [step] at hf

theorem drain_mid_events (ctx : RunCtx) :
    ∀ (l : List (Chunk × Int)) (st : ProjState),
      ∀ f ∈ (drain ctx st l).2,
        f.event ≠ "RunStarted" ∧ f.event ≠ "RunError" := by
  intro l
  induction l with
  | nil => intro st f hf; simp [drain] at hf
  | cons p rest ih =>
    intro st f hf
    rcases p with ⟨c, t⟩
    rw [drain] at hf
    simp only [List.mem_append] at hf
    rcases hf with hf | hf
    · exact step_mid_events ctx st c t f hf
    · exact ih (step ctx st c t).1 f hf

/-- C5: the first emitted frame is `RunStarted` (emitted before any chunk
is consumed), `RunStarted` is emitted exactly once, any `RunError` frame is
the last frame of the stream, and in particular no `RunCompleted` frame
ever follows a `RunError` frame. -/
theorem frame_ordering (ctx : RunCtx) (startTime : Int)
    (chunks : List (Chunk × Int)) (abort : Option (String × Int)) :
    (generate_sse_response ctx startTime chunks abort).head? =
      some (runStartedFrame ctx startTime) ∧
    (generate_sse_response ctx startTime chunks abort).countP
      (fun f => f.event = "RunStarted") = 1 ∧
    (∀ (i : Nat) (f : Frame),
      (generate_sse_response ctx startTime chunks abort)[i]? = some f →
      f.event = "RunError" →
      i = (generate_sse_response ctx startTime chunks abort).length - 1) ∧
    (∀ (i j : Nat) (fi fj : Frame),
      (generate_sse_response ctx startTime chunks abort)[i]? = some fi →
      (generate_sse_response ctx startTime chunks abort)[j]? = some fj →
      fi.event = "RunError" → fj.event = "RunCompleted" → j < i) := by
  have hbody := drain_mid_events ctx chunks {}
  have herrlast : ∀ (i : Nat) (f : Frame),
      (generate_sse_response ctx startTime chunks abort)[i]? = some f →
      f.event = "RunError" →
      i = (generate_sse_response ctx startTime chunks abort).length - 1 := by
    intro i f hif herr
    simp only [generate_sse_response] at hif ⊢
    cases i with
    | zero =>
      simp only [List.getElem?_cons_zero] at hif
      injection hif with hif
      rw [← hif] at herr
      simp [runStartedFrame] at herr
    | succ k =>
      simp only [List.getElem?_cons_succ] at hif
      by_cases hk : k < (drain ctx {} chunks).2.length
      · rw [List.getElem?_append_left hk] at hif
        exact absurd herr (hbody f (List.getElem?_mem hif)).2
      · push_neg at hk
        rw [List.getElem?_append_right hk] at hif
        rcases abort with _ | ⟨msg, t⟩
        · simp at hif
        · dsimp only at hif ⊢
          rcases List.getElem?_eq_some.mp hif with ⟨hlt, _⟩
          have h1 : k - (drain ctx {} chunks).2.length < 1 := by
            simpa using hlt
          simp only [List.length_cons, List.length_append,
            List.length_singleton, List.length_nil]
          omega
  refine ⟨by simp [generate_sse_response], ?_, herrlast, ?_⟩
  · have h1 : (drain ctx {} chunks).2.countP
        (fun f => decide (f.event = "RunStarted")) = 0 :=
      List.countP_eq_zero.mpr (fun a ha => by simp [(hbody a ha).1])
    rcases abort with _ | ⟨msg, t⟩ <;>
      · simp only [generate_sse_response]
        rw [List.countP_cons, List.countP_append, h1]
        simp [runStartedFrame, runErrorFrame]
  · intro i j fi fj hi hj hife hjfe
    have hlast := herrlast i fi hi hife
    rcases List.getElem?_eq_some.mp hj with ⟨hjlt, _⟩
    have hne : j ≠ i := by
      intro hji
      rw [hji, hi] at hj
      injection hj with hj
      rw [hj] at hife
      rw [hife] at hjfe
      simp at hjfe
    have hlen : 1 ≤ (generate_sse_response ctx startTime chunks abort).length := by
      simp [generate_sse_response]
    omega

theorem frame_ordering_witness :
    (generate_sse_response sampleCtx 0 [(contentChunk (some "hi"), 1)]
        (some ("boom", 2)))[2]? =
      some (runErrorFrame sampleCtx "boom" 2) ∧
    2 = (generate_sse_response sampleCtx 0 [(contentChunk (some "hi"), 1)]
        (some ("boom", 2))).length - 1 :=
  ⟨by decide,
   (frame_ordering sampleCtx 0 [(contentChunk (some "hi"), 1)]
       (some ("boom", 2))).2.2.1 2 (runErrorFrame sampleCtx "boom" 2)
     (by decide) (by decide)⟩

theorem lookup_dictInsert (m : List (String × Nat)) (k : String) (v : Nat)
    (k' : String) :
    (dictInsert m k v).lookup k' = if k' = k then some v else m.lookup k' := by
  induction m with
  | nil =>
    by_cases h : k' = k
    · simp [dictInsert, List.lookup, h]
    · simp [dictInsert, List.lookup, h, beq_eq_false_iff_ne.mpr h]
  | cons p rest ih =>
    rcases p with ⟨k0, v0⟩
    by_cases h0 : k0 = k
    · subst h0
      by_cases h : k' = k0
      · simp [dictInsert, List.lookup, h]
      · simp [dictInsert, List.lookup, h, beq_eq_false_iff_ne.mpr h]
    · by_cases h : k' = k0
      · subst h
        have hkk : ¬ k' = k := fun hc => h0 (hc ▸ rfl)
        simp [dictInsert, h0, List.lookup, hkk]
      · simp [dictInsert, h0, List.lookup, h,
          beq_eq_false_iff_ne.mpr h, ih]

theorem step_mapWF (ctx : RunCtx) (st : ProjState) (c : Chunk) (t : Int)
    (h : mapWF st) : mapWF (step ctx st c t).1 := by
  rcases c with ⟨ev, tool, oc⟩
  cases ev with
  | toolCallStarted =>
    cases tool with
    | none => exact h
    | some tl =>
      intro k i hlook
      simp only [step] at hlook ⊢
      rw [lookup_dictInsert] at hlook
      by_cases hk : k = (startId tl st.uuidCounter).1
      · rw [if_pos hk] at hlook
        injection hlook with hlook
        subst hlook
        refine ⟨_, List.getElem?_concat_length _ _, hk.symm⟩
      · rw [if_neg hk] at hlook
        rcases h k i hlook with ⟨rec, hrec, hid⟩
        have hi : i < st.records.length :=
          (List.getElem?_eq_some.mp hrec).1
        exact ⟨rec, by rw [List.getElem?_append_left hi]; exact hrec, hid⟩
  | toolCallCompleted =>
    cases tool with
    | none => exact h
    | some tl =>
      simp only [step]
      cases hm : matchIdx st tl.tool_call_id with
      | none => exact h
      | some i =>
        dsimp only
        cases hr : st.records[i]? with
        | none => exact h
        | some rec =>
          dsimp only
          intro k j hlook
          dsimp only at hlook
          rcases h k j hlook with ⟨recj, hrecj, hid⟩
          by_cases hij : i = j
          · subst hij
            rw [hr] at hrecj
            injection hrecj with hrecj
            subst hrecj
            have hi : i < st.records.length :=
              (List.getElem?_eq_some.mp hr).1
            refine ⟨completeRecord tl t rec, ?_, hid⟩
            show (st.records.set i (completeRecord tl t rec))[i]? = _
            rw [List.getElem?_set_self (by simpa using hi)]
          · refine ⟨recj, ?_, hid⟩
            show (st.records.set i (completeRecord tl t rec))[j]? = _
            rw [List.getElem?_set_ne hij]
            exact hrecj
  | runContent =>
    intro k i hlook
    simp only [step] at hlook ⊢
    by_cases hc : oc.getD "" = ""
    · rw [if_pos hc] at hlook ⊢
      exact h k i hlook
    · rw [if_neg hc] at hlook ⊢
      exact h k i hlook
  | runCompleted => exact h
  | other => exact h

theorem drain_mapWF (ctx : RunCtx) :
    ∀ (l : List (Chunk × Int)) (st : ProjState),
      mapWF st → mapWF (drain ctx st l).1 := by
  intro l
  induction l with
  | nil => intro st h; exact h
  | cons p rest ih =>
    intro st h
    rcases p with ⟨c, t⟩
    rw [drain]
    exact ih (step ctx st c t).1 (step_mapWF ctx st c t h)

theorem stateAfter_mapWF (ctx : RunCtx) (chunks : List (Chunk × Int)) :
    mapWF (stateAfter ctx chunks) := by
  apply drain_mapWF
  intro k i hlook
  simp [List.lookup] at hlook

/-- C3: tool-call correlation for any reachable run state. (1) A completion
whose correlation id has a binding in `tool_call_map` completes exactly the
bound record: the emitted `ToolCallCompleted` record carries that
`toolCallId`, a non-null `content`, and (for a monotone clock) a
non-negative `metrics.time`. (2) When the id has no binding (absent id
included), the first record in start order whose `content` is still `None`
is the one completed. (3) When the id has no binding and no record has
null `content`, the completion is dropped: no frame, state unchanged. -/
theorem tool_call_correlation (ctx : RunCtx) (chunks : List (Chunk × Int))
    (tool : RawTool) (t : Int) :
    (∀ (idv : String) (i : Nat) (rec : ToolCallRecord),
      tool.tool_call_id = some idv →
      (stateAfter ctx chunks).callMap.lookup idv = some i →
      (stateAfter ctx chunks).records[i]? = some rec →
      step ctx (stateAfter ctx chunks)
          { event := .toolCallCompleted, tool := some tool } t =
        ({ stateAfter ctx chunks with
            records := (stateAfter ctx chunks).records.set i
              (completeRecord tool t rec) },
         [toolCompletedFrame ctx (completeRecord tool t rec) t]) ∧
      (completeRecord tool t rec).tool_call_id = idv ∧
      (completeRecord tool t rec).content ≠ none ∧
      (rec.created_at ≤ t → 0 ≤ (completeRecord tool t rec).metricsTime)) ∧
    (∀ (i : Nat) (rec : ToolCallRecord),
      mapGet (stateAfter ctx chunks).callMap tool.tool_call_id = none →
      (stateAfter ctx chunks).records.findIdx?
        (fun r => r.content = none) = some i →
      (stateAfter ctx chunks).records[i]? = some rec →
      rec.content = none ∧
      step ctx (stateAfter ctx chunks)
          { event := .toolCallCompleted, tool := some tool } t =
        ({ stateAfter ctx chunks with
            records := (stateAfter ctx chunks).records.set i
              (completeRecord tool t rec) },
         [toolCompletedFrame ctx (completeRecord tool t rec) t]) ∧
      (completeRecord tool t rec).content ≠ none) ∧
    (mapGet (stateAfter ctx chunks).callMap tool.tool_call_id = none →
      (stateAfter ctx chunks).records.findIdx?
        (fun r => r.content = none) = none →
      step ctx (stateAfter ctx chunks)
          { event := .toolCallCompleted, tool := some tool } t =
        (stateAfter ctx chunks, [])) := by
  refine ⟨?_, ?_, ?_⟩
  · intro idv i rec hid hlook hrec
    have hmatch : matchIdx (stateAfter ctx chunks) tool.tool_call_id =
        some i := by
      simp [matchIdx, mapGet, hid, hlook]
    have hwf := stateAfter_mapWF ctx chunks idv i hlook
    rcases hwf with ⟨rec', hrec', hid'⟩
    rw [hrec] at hrec'
    injection hrec' with hrec'
    subst hrec'
    refine ⟨by simp [step, hmatch, hrec], hid', by simp [completeRecord], ?_⟩
    intro hle
    simp only [completeRecord]
    omega
  · intro i rec hget hfind hrec
    have hne : ¬ (stateAfter ctx chunks).records.isEmpty := by
      rcases List.findIdx?_eq_some_iff_getElem.mp hfind with ⟨hlt, _, _⟩
      intro hemp
      rw [List.isEmpty_iff] at hemp
      rw [hemp] at hlt
      simp at hlt
    have hmatch : matchIdx (stateAfter ctx chunks) tool.tool_call_id =
        some i := by
      simp [matchIdx, hget, hne, hfind]
    have hcontent : rec.content = none := by
      rcases List.findIdx?_eq_some_iff_getElem.mp hfind with ⟨hlt, hp, _⟩
      have := List.getElem?_eq_some.mpr ⟨hlt, rfl⟩
      rw [hrec] at this
      injection this with this
      rw [← this] at hp
      simpa using hp
    exact ⟨hcontent, by simp [step, hmatch, hrec],
      by simp [completeRecord]⟩
  · intro hget hfind
    have hmatch : matchIdx (stateAfter ctx chunks) tool.tool_call_id =
        none := by
      simp [matchIdx, hget, hfind]
    simp [step, hmatch]

theorem tool_call_correlation_witness :
    (completeRecord (complTool "42") 1 recT1).tool_call_id = "T1" ∧
    (completeRecord (complTool "42") 1 recT1).content ≠ none ∧
    0 ≤ (completeRecord (complTool "42") 1 recT1).metricsTime := by
  have h := (tool_call_correlation sampleCtx [(startChunkT1, 0)]
      (complTool "42") 1).1 "T1" 0 recT1 rfl (by decide) (by decide)
  exact ⟨h.2.1, h.2.2.1, h.2.2.2 (by decide)⟩

/-- C8 counterexample: after `started(T1)` and a first matching completion
with result `"a"`, a second completion carrying the same correlation id
`T1` overwrites the record's already-set `content` (and `metrics.time`) —
the exact-id lookup does not skip already-completed records, so content is
not write-once. -/
theorem record_overwrite_counterexample :
    ((stateAfter sampleCtx
        [(startChunkT1, 0),
         ({ event := .toolCallCompleted, tool := some (complTool "a") }, 1)]).records.map
      (fun r => r.content)) = [some "a"] ∧
    ((stateAfter sampleCtx
        [(startChunkT1, 0),
         ({ event := .toolCallCompleted, tool := some (complTool "a") }, 1),
         ({ event := .toolCallCompleted, tool := some (complTool "b") }, 2)]).records.map
      (fun r => r.content)) = [some "b"] := by
  refine ⟨by decide, by decide⟩

/-- C8 amended: every record is created with `content = None`; a completion
matched through the no-id fallback only ever targets a record whose
`content` is still `None` (so the fallback never overwrites); and no
non-completion chunk modifies an existing record — but a later completion
that carries the same correlation id *does* overwrite `content` and
`metrics.time`, so they are set exactly once only in streams that never
repeat a correlation id. -/
theorem record_completion_invariant :
    (∀ (ctx : RunCtx) (st : ProjState) (tl : RawTool) (t : Int),
      (step ctx st { event := .toolCallStarted, tool := some tl } t).1.records =
        st.records ++
          [{ role := "tool", content := none,
             tool_call_id := (startId tl st.uuidCounter).1,
             tool_name := startName tl, tool_args := startArgs tl,
             tool_call_error := false, metricsTime := 0, created_at := t }]) ∧
    (∀ (st : ProjState) (tcId : Option String) (i : Nat),
      mapGet st.callMap tcId = none →
      matchIdx st tcId = some i →
      ∃ rec, st.records[i]? = some rec ∧ rec.content = none) ∧
    (∀ (ctx : RunCtx) (st : ProjState) (c : Chunk) (t : Int) (i : Nat)
        (rec : ToolCallRecord),
      c.event ≠ .toolCallCompleted →
      st.records[i]? = some rec →
      (step ctx st c t).1.records[i]? = some rec) := by
  refine ⟨?_, ?_, ?_⟩
  · intro ctx st tl t
    simp [step]
  · intro st tcId i hget hmatch
    rw [matchIdx, hget] at hmatch
    by_cases hemp : st.records.isEmpty
    · rw [if_pos hemp] at hmatch
      exact absurd hmatch (by simp)
    · rw [if_neg hemp] at hmatch
      rcases List.findIdx?_eq_some_iff_getElem.mp hmatch with ⟨hlt, hp, _⟩
      refine ⟨st.records[i], List.getElem?_eq_some.mpr ⟨hlt, rfl⟩, ?_⟩
      simpa using hp
  · intro ctx st c t i rec hev hrec
    rcases c with ⟨ev, tool, oc⟩
    cases ev with
    | toolCallStarted =>
      cases tool with
      | none => exact hrec
      | some tl =>
        simp only [step]
        have hi : i < st.records.length :=
          (List.getElem?_eq_some.mp hrec).1
        rw [List.getElem?_append_left hi]
        exact hrec
    | toolCallCompleted => exact absurd rfl hev
    | runContent =>
      simp only [step]
      by_cases hc : oc.getD "" = ""
      · rw [if_pos hc]; exact hrec
      · rw [if_neg hc]; exact hrec
    | runCompleted => exact hrec
    | other => exact hrec

theorem record_completion_invariant_witness :
    ∃ rec, (stateAfter sampleCtx [(startChunkT1, 0)]).records[0]? =
        some rec ∧ rec.content = none :=
  record_completion_invariant.2.1
    (stateAfter sampleCtx [(startChunkT1, 0)]) none 0 rfl (by decide)

end MCPClient
